import Mathlib

/-!
# The Senso WebSocket gateway (`senso/websocket.go`, `senso/discovery.go`)

A shallow embedding of the command/message codec, of the loops of `ServeHTTP`
and of `Handle.Discover`, followed by the properties proved about them.

Conventions of the embedding.

* Byte strings are lists of naturals below 256.  What `encoding/json` reads is a
  `Data` value: the bytes together with what the library's scanner makes of them
  (`none` when the syntax check rejects them, the JSON value otherwise).  The
  scanner itself is library code and is not re-implemented.
* What `encoding/json` writes is kept as a JSON value; its serialisation to
  bytes is library code.
* A Go pointer that may be nil is an `Option`; a Go slice that may be nil is an
  `Option (List _)`.
* Effects on the socket, the bus, the device connection and the log are
  recorded as a list of `Event`s in program order.  Results that the
  environment decides (whether a socket write succeeds, what a read returns,
  whether the resolver can be initialised) are inputs of the step functions.
-/

namespace Senso

/-! ## JSON values as seen by `encoding/json` -/

/-- A byte string (`[]byte`). -/
abbrev Bytes := List Nat

/-- The bytes of an ASCII text. -/
def ascii (s : String) : Bytes := s.toList.map Char.toNat

/-- A JSON value.  Numbers are split the way the decoder of an `int` field sees
them: `int n` is a number token without fraction and exponent, `frac raw` is any
other number token.  Objects keep their members in input order, duplicates
included. -/
inductive JValue where
  | null
  | bool (b : Bool)
  | int (n : Int)
  | frac (raw : String)
  | str (s : String)
  | arr (items : List JValue)
  | obj (members : List (String × JValue))

/-- A byte string handed to `json.Unmarshal`, with the outcome of the library's
syntax check: `json = none` when the bytes are not valid JSON. -/
structure Data where
  bytes : Bytes
  json : Option JValue

/-- The errors the codec can return. -/
inductive Error where
  /-- The library error `*json.SyntaxError`. -/
  | invalidJSON
  /-- The library error `*json.UnmarshalTypeError`. -/
  | unmarshalType
  /-- The error `errors.New("can not decode unknown command")`. -/
  | unknownCommand
  /-- The error `errors.New("could not marshal message")`. -/
  | couldNotMarshal
  /-- The library error `*json.MarshalerError` around the `invalid IP address`
  error of `net.IP.MarshalText`. -/
  | marshalerError
  deriving DecidableEq, Repr

/-- Case folding of one rune as `encoding/json` applies it to object keys:
ASCII letters lose their case, and the two non-ASCII runes whose simple fold is
an ASCII letter (U+017F long s, U+212A Kelvin sign) fold to it.  Every other
rune folds to a non-ASCII rune, which is all that matters against the ASCII
field names used here, so it is left in place. -/
def foldRune (c : Char) : Char :=
  if 97 ≤ c.toNat ∧ c.toNat ≤ 122 then Char.ofNat (c.toNat - 32)
  else if c.toNat = 0x17F then 'S'
  else if c.toNat = 0x212A then 'K'
  else c

/-- Case-insensitive comparison of a field name with an object key. -/
def equalFold (name key : String) : Bool :=
  name.toList.map foldRune == key.toList.map foldRune

/-- Whether the decoder stores the member with key `key` into the struct field
tagged `name`: an exact match, or else a case-insensitive one. -/
def fieldMatches (name key : String) : Bool :=
  key == name || equalFold name key

/-- Width of Go's `int` (64-bit targets). -/
def intSize : Nat := 64

/-- Whether an integer is representable in Go's `int`. -/
def fitsInt (n : Int) : Prop :=
  -(2 ^ (intSize - 1) : Int) ≤ n ∧ n < (2 ^ (intSize - 1) : Int)

instance (n : Int) : Decidable (fitsInt n) := by
  unfold fitsInt; infer_instance

/-- Storing a JSON value into a `string` field: the new field value and whether
an `UnmarshalTypeError` was recorded.  `null` leaves the field alone. -/
def storeString (cur : String) : JValue → String × Bool
  | .str s => (s, false)
  | .null => (cur, false)
  | _ => (cur, true)

/-- Storing a JSON value into an `int` field: a number token is parsed with
`strconv.ParseInt` and must fit the field. -/
def storeInt (cur : Int) : JValue → Int × Bool
  | .int n => if fitsInt n then (n, false) else (cur, true)
  | .null => (cur, false)
  | _ => (cur, true)

/-- Decoding the members of an object into a struct with the single field
`name`: members are visited in order, each matching member is stored (a later
one overwrites an earlier one), the others are skipped, and decoding goes on
after a type error. -/
def decodeField {α : Type} (store : α → JValue → α × Bool) (name : String) :
    List (String × JValue) → α × Bool → α × Bool
  | [], acc => acc
  | (k, v) :: rest, acc =>
    if fieldMatches name k then
      decodeField store name rest ((store acc.1 v).1, acc.2 || (store acc.1 v).2)
    else
      decodeField store name rest acc

/-- The library call `json.Unmarshal(data, &s)` for a struct `s` with the single
field `name`, given as the field's current value. -/
def unmarshalStruct {α : Type} (store : α → JValue → α × Bool) (name : String)
    (data : Data) (cur : α) : Option Error × α :=
  match data.json with
  | none => (some .invalidJSON, cur)
  | some .null => (none, cur)
  | some (.obj members) =>
    let r := decodeField store name members (cur, false)
    (if r.2 then some .unmarshalType else none, r.1)
  | some _ => (some .unmarshalType, cur)

/-- The library call `json.Unmarshal(data, &p)` for a pointer `p` to such a
struct: `null` resets the pointer to nil, anything else allocates the struct
when the pointer is nil and then decodes into it, so that the pointer is set
also when a type error is returned. -/
def unmarshalPtr {α : Type} (store : α → JValue → α × Bool) (name : String)
    (zero : α) (data : Data) (cur : Option α) : Option Error × Option α :=
  match data.json with
  | none => (some .invalidJSON, cur)
  | some .null => (none, none)
  | some (.obj members) =>
    let r := decodeField store name members (cur.getD zero, false)
    (if r.2 then some .unmarshalType else none, some r.1)
  | some _ => (some .unmarshalType, some (cur.getD zero))

/-! ## The command codec -/

/-- The `GetStatus` command. -/
structure GetStatus where
  deriving DecidableEq, Repr

/-- The `Connect` command. -/
structure Connect where
  Address : String
  deriving DecidableEq, Repr

/-- The `Disconnect` command. -/
structure Disconnect where
  deriving DecidableEq, Repr

/-- The `Discover` command. -/
structure Discover where
  Duration : Int
  deriving DecidableEq, Repr

/-- A command sent by Play: four embedded pointers, nil when not populated. -/
structure Command where
  GetStatus : Option GetStatus
  Connect : Option Connect
  Disconnect : Option Disconnect
  Discover : Option Discover
  deriving DecidableEq, Repr

/-- The zero value `var command Command`. -/
def Command.fresh : Command := ⟨none, none, none, none⟩

/-- The label the receive loop logs for a command.  The fourth test repeats the
third, as in the source. -/
def prettyPrintCommand (command : Command) : String :=
  if command.GetStatus.isSome then "GetStatus"
  else if command.Connect.isSome then "Connect"
  else if command.Disconnect.isSome then "Disconnect"
  else if command.Disconnect.isSome then "Discover"
  else "Unknown"

/-- The method `Command.UnmarshalJSON`: the returned error (`none` for nil) and the command
as the call leaves it. -/
def Command.UnmarshalJSON (command : Command) (data : Data) : Option Error × Command :=
  match unmarshalStruct storeString "type" data "" with
  | (some err, _) => (some err, command)
  | (none, tempType) =>
    if tempType = "GetStatus" then
      (none, { command with GetStatus := some {} })
    else if tempType = "Connect" then
      let r := unmarshalPtr storeString "address" "" data
        (command.Connect.map Connect.Address)
      (r.1, { command with Connect := r.2.map Connect.mk })
    else if tempType = "Disconnect" then
      (none, { command with Disconnect := some {} })
    else if tempType = "Discover" then
      let r := unmarshalPtr storeInt "duration" 0 data
        (command.Discover.map Discover.Duration)
      (r.1, { command with Discover := r.2.map Discover.mk })
    else
      (some .unknownCommand, command)

/-- The library call `json.Unmarshal(msg, &command)` of the receive loop: the
syntax check, then `Command.UnmarshalJSON` on the whole input. -/
def unmarshalCommand (msg : Data) (command : Command) : Option Error × Command :=
  match msg.json with
  | none => (some .invalidJSON, command)
  | some _ => command.UnmarshalJSON msg

/-! ## The message codec -/

/-- A `net.IP`: a byte slice, together with the text `ip.String()` renders for
it when it holds an address (the rendering itself is library code). -/
structure IP where
  bytes : Bytes
  text : String

/-- Whether `net.IP.MarshalText` accepts the slice: its length is 0, 4 or 16. -/
def IP.valid (ip : IP) : Bool :=
  ip.bytes.length == 0 || ip.bytes.length == 4 || ip.bytes.length == 16

/-- The text `net.IP.MarshalText` gives for an accepted slice: empty for the
empty slice, `ip.String()` otherwise. -/
def IP.rendered (ip : IP) : String :=
  if ip.bytes.length = 0 then "" else ip.text

/-- The method `net.IP.MarshalText`, which `json.Marshal` calls on every
address: a slice whose length is not 0, 4 or 16 is an error. -/
def IP.MarshalText (ip : IP) : Except Error String :=
  if ip.bytes.length = 0 then .ok ""
  else if ip.bytes.length = 4 ∨ ip.bytes.length = 16 then .ok ip.text
  else .error .marshalerError

/-- A `zeroconf.ServiceEntry`: `fields` is the JSON object `encoding/json`
renders for the record (its two address lists are excluded from it by their
`json:"-"` tags), followed by the address lists themselves. -/
structure ServiceEntry where
  fields : JValue
  AddrIPv4 : Option (List IP)
  AddrIPv6 : Option (List IP)

/-- The elements of a slice; a nil slice has none. -/
def elems {α : Type} (s : Option (List α)) : List α := s.getD []

/-- Go's `append(s, t...)`: a nil `s` stays nil when nothing is appended. -/
def goAppend {α : Type} (s t : Option (List α)) : Option (List α) :=
  match s, elems t with
  | none, [] => none
  | none, y :: ys => some (y :: ys)
  | some xs, ys => some (xs ++ ys)

/-- What `json.Marshal` renders for a `*string`. -/
def marshalStringPtr : Option String → JValue
  | none => .null
  | some s => .str s

/-- What `json.Marshal` renders for the elements of a `[]net.IP`, one after the
other; the first address that `MarshalText` rejects ends the encoding with its
error. -/
def marshalTexts : List IP → Except Error (List JValue)
  | [] => .ok []
  | ip :: rest =>
    match ip.MarshalText with
    | .error e => .error e
    | .ok t =>
      match marshalTexts rest with
      | .error e => .error e
      | .ok ts => .ok (.str t :: ts)

/-- What `json.Marshal` renders for a `[]net.IP`: `null` for a nil slice, else
the array of the textual forms, or the error of an address that is rejected. -/
def marshalIPs : Option (List IP) → Except Error JValue
  | none => .ok .null
  | some ips =>
    match marshalTexts ips with
    | .error e => .error e
    | .ok ts => .ok (.arr ts)

/-- A status message. -/
structure Status where
  Address : Option String

/-- A message that can be sent to Play. -/
structure Message where
  Status : Option Status
  Discovered : Option ServiceEntry

/-- The zero value `var message Message`. -/
def Message.fresh : Message := ⟨none, none⟩

/-- The method `Message.MarshalJSON`: the encoding, or the error returned. -/
def Message.MarshalJSON (message : Message) : Except Error JValue :=
  match message.Status with
  | some status =>
    .ok (.obj [("type", .str "Status"), ("address", marshalStringPtr status.Address)])
  | none =>
    match message.Discovered with
    | some entry =>
      match marshalIPs (goAppend entry.AddrIPv4 entry.AddrIPv6) with
      | .ok ip =>
        .ok (.obj [("type", .str "Discovered"), ("service", entry.fields), ("ip", ip)])
      | .error e => .error e
    | none => .error .couldNotMarshal

/-! ## Effects -/

/-- Log levels used by the gateway. -/
inductive Level where
  | debug | info | warning | error
  deriving DecidableEq, Repr

/-- What the environment answers to a socket write. -/
inductive WriteResult where
  | ok
  /-- The write returned an error; the flag is what
  `websocket.IsUnexpectedCloseError` says about it. -/
  | failed (unexpectedClose : Bool)
  deriving DecidableEq, Repr

/-- Whether the write returned an error. -/
def WriteResult.isErr : WriteResult → Bool
  | .ok => false
  | .failed _ => true

/-- One observable effect of the gateway. -/
inductive Event where
  /-- Call of `writeMutex.Lock()`. -/
  | lock
  /-- Call of `conn.SetWriteDeadline(time.Now().Add(50 * time.Millisecond))`. -/
  | setWriteDeadline
  /-- Call of `conn.WriteMessage(websocket.BinaryMessage, data)` and its result. -/
  | writeMessage (data : Bytes) (result : WriteResult)
  /-- Call of `conn.WriteJSON(&message)`, a text frame, and what the call
  returns. -/
  | writeJSON (message : Message) (result : WriteResult)
  /-- Call of `writeMutex.Unlock()`. -/
  | unlock
  /-- Call of `handle.broker.TryPub(msg, topic)`. -/
  | tryPub (msg : Bytes) (topic : String)
  /-- Call of `handle.broker.Sub("rx")`. -/
  | sub (topic : String)
  /-- Call of `handle.broker.Unsub(rx)`. -/
  | unsub
  /-- Call of `conn.Close()`. -/
  | connClose
  /-- Call of `handle.Connect(address)`. -/
  | connect (address : String)
  /-- Call of `handle.Disconnect()`. -/
  | disconnect
  /-- Call of `context.WithTimeout(context.Background(), d)` creating context `ctx`,
  with `d` in nanoseconds. -/
  | withTimeout (ctx : Nat) (nanoseconds : Int)
  /-- The deferred `cancelDiscovery()` of context `ctx`. -/
  | cancelDiscovery (ctx : Nat)
  /-- Call of `zeroconf.NewResolver(nil)`. -/
  | newResolver
  /-- Call of `resolver.Browse(ctx, "_sensoControl._tcp", "local.", entries)`. -/
  | browse (ctx : Nat)
  /-- The `go func(entries)` statement starting a discovery consumer. -/
  | spawnConsumer (ctx : Nat)
  /-- Call of `http.Error(w, "WebSocket upgrade error", http.StatusBadRequest)`. -/
  | httpError (status : Nat)
  /-- A log entry; `command` is the value of its `command` field, if any. -/
  | log (level : Level) (text : String) (command : Option String)

/-- The socket writes of a trace, in order. -/
def socketWrites : List Event → List Event
  | [] => []
  | .writeMessage d r :: rest => .writeMessage d r :: socketWrites rest
  | .writeJSON m r :: rest => .writeJSON m r :: socketWrites rest
  | _ :: rest => socketWrites rest

/-- The messages handed to `conn.WriteJSON`, in order. -/
def jsonWrites : List Event → List Message
  | [] => []
  | .writeJSON m _ :: rest => m :: jsonWrites rest
  | _ :: rest => jsonWrites rest

/-- The messages whose `conn.WriteJSON` succeeded, in order. -/
def jsonWritten : List Event → List Message
  | [] => []
  | .writeJSON m .ok :: rest => m :: jsonWritten rest
  | _ :: rest => jsonWritten rest

/-- The bus publications of a trace, in order: payload and topic. -/
def busPublishes : List Event → List (Bytes × String)
  | [] => []
  | .tryPub msg topic :: rest => (msg, topic) :: busPublishes rest
  | _ :: rest => busPublishes rest

/-- Whether an event is a call of the device connection (`Connect`,
`Disconnect`) or the start of a discovery. -/
def Event.isCollaboratorCall : Event → Bool
  | .connect _ => true
  | .disconnect => true
  | .withTimeout _ _ => true
  | .newResolver => true
  | .browse _ => true
  | .spawnConsumer _ => true
  | _ => false

/-- Whether an event is the unsubscription from the bus. -/
def Event.isUnsub : Event → Bool
  | .unsub => true
  | _ => false

/-- Whether an event is the closing of the socket. -/
def Event.isConnClose : Event → Bool
  | .connClose => true
  | _ => false

/-! ## `Handle.Discover` (`senso/discovery.go`) -/

/-- A `*zeroconf.Resolver` that was successfully created, given by what its
`Browse` does: whether it returns an error, and the records it sends on the
entries channel once started. -/
structure Resolver where
  browseFails : Bool
  found : List ServiceEntry

/-- How a call ends: with a value, or in a run-time panic. -/
inductive Outcome (α : Type) where
  | returned (value : α)
  | panicked

/-- The call `resolver.Browse(ctx, ...)`.  The method reads `r.c` first, so a nil
receiver is a nil-pointer dereference.  A browse that fails to start sends
nothing on the channel. -/
def Resolver.Browse : Option Resolver → Outcome (Bool × List ServiceEntry)
  | none => .panicked
  | some r => .returned (r.browseFails, if r.browseFails then [] else r.found)

/-- The method `Handle.Discover`: the events up to the return or the panic, and the
records the returned channel will yield.  `resolver` is what
`zeroconf.NewResolver(nil)` returns: `none` for `(nil, err)`. -/
def Handle.Discover (resolver : Option Resolver) (ctx : Nat) :
    List Event × Outcome (List ServiceEntry) :=
  let init : List Event :=
    .newResolver ::
      (if resolver.isNone then [.log .error "Initializing discovery failed." none] else [])
      ++ [.log .debug "Initialized discovery." none, .browse ctx]
  match Resolver.Browse resolver with
  | .panicked => (init, .panicked)
  | .returned (failed, entries) =>
    (init ++ (if failed then [.log .error "Browsing failed." none] else []),
      .returned entries)

/-! ## `ServeHTTP` (`senso/websocket.go`): the loops, one iteration at a time -/

/-- The part of `Handle` the gateway reads: the last known address. -/
structure Handle where
  Address : Option String

/-- The constant `websocket.TextMessage`. -/
def TextMessage : Nat := 1

/-- The constant `websocket.BinaryMessage`. -/
def BinaryMessage : Nat := 2

/-- What `conn.ReadMessage()` returns. -/
inductive ReadResult where
  | message (messageType : Nat) (msg : Data)
  /-- An error; the flag is what `websocket.IsUnexpectedCloseError` says. -/
  | failed (unexpectedClose : Bool)

/-- What the environment answers during one iteration of the receive loop:
the handle as it is then, the result of the socket write if one is made, and
what `zeroconf.NewResolver` returns if it is called. -/
structure Env where
  handle : Handle
  write : WriteResult
  resolver : Option Resolver

/-- How an iteration of a loop ends. -/
inductive Next where
  /-- The loop goes on with its next iteration. -/
  | loop
  /-- The goroutine returns. -/
  | done
  /-- The goroutine panics, which ends the process. -/
  | crash
  deriving DecidableEq, Repr

/-- Arithmetic of `int64`: the representative in `[-2^63, 2^63)`. -/
def wrap64 (x : Int) : Int := (x + 2 ^ 63) % 2 ^ 64 - 2 ^ 63

/-- The closure `send`: the events and whether an error is returned. -/
def send (data : Bytes) (result : WriteResult) : List Event × Bool :=
  ([.lock, .setWriteDeadline, .writeMessage data result, .unlock] ++
    (match result with
      | .failed true => [.log .error "WebSocket error" none]
      | _ => []),
    result.isErr)

/-- One iteration of the send loop on the value received from `rx`: `some data`
for a `[]byte`, `none` for a value of another type. -/
def sendIteration (item : Option Bytes) (result : WriteResult) : List Event × Next :=
  match item with
  | some data =>
    let r := send data result
    (r.1, if r.2 then .done else .loop)
  | none => ([], .loop)

/-- The closure `close`. -/
def close : List Event :=
  [.unsub, .connClose, .log .info "Websocket connection closed" none]

/-- The deferred calls of the receive goroutine, last deferred first: the
`cancelDiscovery` of every discovery started, then `close`. -/
def runDeferred (deferred : List Nat) : List Event :=
  deferred.map .cancelDiscovery ++ close

/-- The locked write of a JSON message, as written out twice in the source. -/
def lockedWriteJSON (message : Message) (result : WriteResult) : List Event :=
  [.lock, .setWriteDeadline, .writeJSON message result, .unlock] ++
    (if result.isErr then [.log .error "WebSocket write error." none] else [])

/-- The result of one iteration of the receive loop. -/
structure Iteration where
  /-- The effects, in order; those of the deferred calls included when the
  goroutine ends. -/
  events : List Event
  /-- The contexts whose `cancelDiscovery` is deferred, last first. -/
  deferred : List Nat
  next : Next
  /-- The stream handed to a discovery consumer started in this iteration. -/
  spawned : Option (List ServiceEntry)

/-- The dispatch on a decoded command (the `if command.GetStatus != nil ...`
chain). -/
def dispatch (deferred : List Nat) (env : Env) (command : Command) : Iteration :=
  if command.GetStatus.isSome then
    let message : Message := { Message.fresh with Status := some ⟨env.handle.Address⟩ }
    ⟨lockedWriteJSON message env.write, deferred, .loop, none⟩
  else match command.Connect with
  | some c => ⟨[.connect c.Address], deferred, .loop, none⟩
  | none =>
    if command.Disconnect.isSome then ⟨[.disconnect], deferred, .loop, none⟩
    else match command.Discover with
    | some d =>
      let ctx := deferred.length
      let start : List Event := [.withTimeout ctx (wrap64 (d.Duration * 1000000000))]
      match Handle.Discover env.resolver ctx with
      | (evs, .returned entries) =>
        ⟨start ++ evs ++ [.spawnConsumer ctx], ctx :: deferred, .loop, some entries⟩
      | (evs, .panicked) =>
        ⟨start ++ evs ++ runDeferred (ctx :: deferred), ctx :: deferred, .crash, none⟩
    | none => ⟨[], deferred, .loop, none⟩

/-- One iteration of the receive loop, given what `conn.ReadMessage()`
returned. -/
def receiveIteration (deferred : List Nat) (env : Env) : ReadResult → Iteration
  | .failed unexpected =>
    ⟨(if unexpected then [.log .error "WebSocket error" none] else []) ++ runDeferred deferred,
      deferred, .done, none⟩
  | .message messageType msg =>
    if messageType = BinaryMessage then
      ⟨[.tryPub msg.bytes "tx"], deferred, .loop, none⟩
    else if messageType = TextMessage then
      match unmarshalCommand msg Command.fresh with
      | (some _, _) => ⟨[.log .warning "Can not decode command." none], deferred, .loop, none⟩
      | (none, command) =>
        let it := dispatch deferred env command
        { it with events :=
            Event.log .debug "Received command." (some (prettyPrintCommand command)) :: it.events }
    else ⟨[], deferred, .loop, none⟩

/-- One iteration of a discovery consumer on the record received. -/
def consumerIteration (entry : ServiceEntry) (result : WriteResult) : List Event :=
  .log .debug "Discovered service." none ::
    lockedWriteJSON { Message.fresh with Discovered := some entry } result

/-- A discovery consumer run over the whole stream, each record paired with the
result of its write, up to the closing of the stream. -/
def consumer : List (ServiceEntry × WriteResult) → List Event
  | [] => [.log .debug "Discovery finished." none]
  | (entry, result) :: rest => consumerIteration entry result ++ consumer rest

/-! ## The session: the goroutines of `ServeHTTP` interleaved -/

/-- The state of one gateway session. -/
structure Session where
  /-- Whether the send goroutine is still in its loop. -/
  sendRunning : Bool
  /-- Whether the receive goroutine is still in its loop. -/
  recvRunning : Bool
  /-- Whether a panic has ended the process, and every goroutine with it. -/
  crashed : Bool
  /-- The deferred `cancelDiscovery` calls of the receive goroutine. -/
  deferred : List Nat
  /-- The discovery consumers, by context: the records still to come, `none`
  once the consumer has returned. -/
  consumers : List (Option (List ServiceEntry))
  /-- Everything done so far, in order. -/
  trace : List Event

/-- What happens next in a session: which goroutine is woken, and with what. -/
inductive Input where
  /-- The send loop receives a value from `rx`. -/
  | rx (item : Option Bytes) (result : WriteResult)
  /-- The call `conn.ReadMessage()` returns in the receive loop. -/
  | read (r : ReadResult) (env : Env)
  /-- The consumer of context `ctx` receives from its stream. -/
  | entry (ctx : Nat) (result : WriteResult)

/-- The handler `ServeHTTP` up to the start of the two goroutines.  A failed upgrade starts
no goroutine. -/
def ServeHTTP (upgradeOk : Bool) : Session :=
  if upgradeOk then
    ⟨true, true, false, [], [],
      [.log .info "WebSocket connection opened" none, .sub "rx"]⟩
  else
    ⟨false, false, false, [], [],
      [.log .error "Could not upgrade connection to WebSocket." none, .httpError 400]⟩

/-- One step of a session. -/
def Session.step (s : Session) : Input → Session
  | .rx item result =>
    if s.sendRunning then
      let r := sendIteration item result
      { s with trace := s.trace ++ r.1, sendRunning := r.2 == .loop }
    else s
  | .read r env =>
    if s.recvRunning then
      let it := receiveIteration s.deferred env r
      { s with
        trace := s.trace ++ it.events
        deferred := it.deferred
        recvRunning := it.next == .loop
        sendRunning := s.sendRunning && it.next != .crash
        crashed := it.next == .crash
        consumers := match it.spawned with
          | some entries => s.consumers ++ [some entries]
          | none => s.consumers }
    else s
  | .entry ctx result =>
    if s.crashed then s
    else match s.consumers.get? ctx with
      | some (some (e :: rest)) =>
        { s with trace := s.trace ++ consumerIteration e result
                 consumers := s.consumers.set ctx (some rest) }
      | some (some []) =>
        { s with trace := s.trace ++ [.log .debug "Discovery finished." none]
                 consumers := s.consumers.set ctx none }
      | _ => s

/-- A session run on a schedule of inputs. -/
def Session.run (s : Session) (inputs : List Input) : Session :=
  inputs.foldl Session.step s

/-- How often teardown has unsubscribed from the bus. -/
def Session.unsubs (s : Session) : Nat := s.trace.countP Event.isUnsub

/-- How often the socket has been closed. -/
def Session.closes (s : Session) : Nat := s.trace.countP Event.isConnClose

/-! ## The write lock: the goroutines of a session, one effect at a time -/

/-- The goroutines of a session: the send loop, the receive loop and the
discovery consumers. -/
inductive Goroutine where
  | sendLoop
  | receiveLoop
  | consumer (ctx : Nat)
  deriving DecidableEq, Repr

/-- Whether an event uses the write side of the socket: setting the write
deadline or writing a frame. -/
def Event.onSocket : Event → Bool
  | .setWriteDeadline => true
  | .writeMessage _ _ => true
  | .writeJSON _ _ => true
  | _ => false

/-- Whether the effects still to come keep the lock discipline, for a goroutine
that holds the mutex (`held`) or does not: `Lock()` only when not holding,
`Unlock()` only when holding, the write side of the socket used only when
holding, and the mutex released at the end. -/
def wellLocked : Bool → List Event → Bool
  | held, [] => !held
  | held, e :: rest =>
    match e with
    | .lock => !held && wellLocked true rest
    | .unlock => held && wellLocked false rest
    | _ => (held || !e.onSocket) && wellLocked held rest

/-- The goroutines of a session executing effect by effect: the state of
`writeMutex`, and for each goroutine the effects of its iteration in progress
that are still to come. -/
structure Interleaved where
  locked : Bool
  pending : Goroutine → List Event

/-- The start: the mutex is free and every goroutine is between iterations. -/
def Interleaved.init : Interleaved := ⟨false, fun _ => []⟩

/-- What happens next: a goroutine between two iterations starts its next one,
on the input given, or a goroutine executes its next effect. -/
inductive Action where
  /-- The send loop receives a value from `rx`. -/
  | rx (item : Option Bytes) (result : WriteResult)
  /-- The call `conn.ReadMessage()` returns in the receive loop. -/
  | read (deferred : List Nat) (env : Env) (r : ReadResult)
  /-- The consumer of context `ctx` receives a record. -/
  | entry (ctx : Nat) (entry : ServiceEntry) (result : WriteResult)
  /-- The goroutine executes the next effect of its iteration. -/
  | exec (g : Goroutine)

/-- The goroutine `g`, if between iterations, starts the iteration with these
effects. -/
def Interleaved.start (s : Interleaved) (g : Goroutine) (events : List Event) :
    Interleaved :=
  if (s.pending g).isEmpty then { s with pending := Function.update s.pending g events }
  else s

/-- One step.  `Lock()` on a locked mutex blocks: the goroutine stays where it
is. -/
def Interleaved.step (s : Interleaved) : Action → Interleaved
  | .rx item result => s.start .sendLoop (sendIteration item result).1
  | .read deferred env r => s.start .receiveLoop (receiveIteration deferred env r).events
  | .entry ctx entry result => s.start (.consumer ctx) (consumerIteration entry result)
  | .exec g =>
    match s.pending g with
    | [] => s
    | .lock :: rest =>
      if s.locked then s else ⟨true, Function.update s.pending g rest⟩
    | .unlock :: rest => ⟨false, Function.update s.pending g rest⟩
    | _ :: rest => { s with pending := Function.update s.pending g rest }

/-- The session after a schedule of actions. -/
def Interleaved.run (s : Interleaved) (schedule : List Action) : Interleaved :=
  schedule.foldl Interleaved.step s

/-- Whether the next effect of a goroutine uses the write side of the socket:
the goroutine is setting the write deadline or writing. -/
def atSocket : List Event → Bool
  | [] => false
  | e :: _ => e.onSocket

/-! ## Notions used in the statements -/

/-- The four command tags. -/
def knownTags : List String := ["GetStatus", "Connect", "Disconnect", "Discover"]

/-- Whether `net.IP.MarshalText` accepts every address of a record. -/
def ServiceEntry.addressesValid (entry : ServiceEntry) : Bool :=
  (elems entry.AddrIPv4 ++ elems entry.AddrIPv6).all IP.valid

/-- The text frame `{"type":"GetStatus"}`. -/
def getStatusFrame : ReadResult :=
  .message TextMessage
    ⟨ascii "\x7b\"type\":\"GetStatus\"\x7d", some (.obj [("type", .str "GetStatus")])⟩

/-- What holds of a session throughout: teardown has run exactly when the
receive goroutine has ended. -/
def Session.TornDownOnce (s : Session) : Prop :=
  s.unsubs = (if s.recvRunning then 0 else 1) ∧ s.closes = (if s.recvRunning then 0 else 1)

instance (s : Session) : Decidable s.TornDownOnce := by
  unfold Session.TornDownOnce; infer_instance

/-- What holds of the goroutines throughout, for some account `holds` of who is
between `Lock()` and `Unlock()`: every goroutine keeps the lock discipline in
what it still has to do, whoever holds finds the mutex locked, and is alone. -/
def Interleaved.Exclusive (s : Interleaved) : Prop :=
  ∃ holds : Goroutine → Bool,
    (∀ g, wellLocked (holds g) (s.pending g) = true) ∧
    (∀ g, holds g = true → s.locked = true) ∧
    (∀ g₁ g₂, holds g₁ = true → holds g₂ = true → g₁ = g₂)

/-! ## Properties of the command codec -/

/-- Decoding the `type` discriminator of an object in which every member the
decoder stores is a string with property `P` ends with such a string (or the
starting value) and without a type error. -/
theorem decodeField_type_strings (P : String → Prop) :
    ∀ (members : List (String × JValue)) (cur : String), P cur →
      (∀ m ∈ members, fieldMatches "type" m.1 = true → ∃ s, m.2 = .str s ∧ P s) →
      (decodeField storeString "type" members (cur, false)).2 = false ∧
        P (decodeField storeString "type" members (cur, false)).1 := by
  intro members
  induction members with
  | nil => intro cur hcur _; exact ⟨rfl, hcur⟩
  | cons m rest ih =>
    intro cur hcur h
    obtain ⟨k, v⟩ := m
    have hrest : ∀ m ∈ rest, fieldMatches "type" m.1 = true → ∃ s, m.2 = .str s ∧ P s :=
      fun m hm => h m (List.mem_cons_of_mem _ hm)
    by_cases hk : fieldMatches "type" k = true
    · obtain ⟨s, hs, hP⟩ := h (k, v) (List.mem_cons_self _ _) hk
      simp only at hs
      subst hs
      simp only [decodeField, hk, if_true, storeString, Bool.or_false]
      exact ih s hP hrest
    · simp only [decodeField, hk, Bool.false_eq_true, if_false]
      exact ih cur hcur hrest

/-- C1, as amended.  For every JSON object in which every member whose name
equals `type` up to letter case (none at all, when the field is missing) holds
a string other than the four command tags, `Command.UnmarshalJSON` on a fresh
command returns the unknown-command error and leaves the four variants
unpopulated. -/
theorem UnmarshalJSON_unknown_type (bytes : Bytes) (members : List (String × JValue))
    (h : ∀ m ∈ members, fieldMatches "type" m.1 = true →
      ∃ s, m.2 = .str s ∧ s ∉ knownTags) :
    Command.fresh.UnmarshalJSON ⟨bytes, some (.obj members)⟩
      = (some .unknownCommand, ⟨none, none, none, none⟩) := by
  have hd := decodeField_type_strings (fun s => s ∉ knownTags) members ""
    (by decide) h
  obtain ⟨h2, h1⟩ := hd
  simp only [knownTags, List.mem_cons, List.mem_singleton, List.not_mem_nil, or_false,
    not_or] at h1
  obtain ⟨hg, hc, hdis, hdisc⟩ := h1
  simp only [Command.UnmarshalJSON, unmarshalStruct, h2, Bool.false_eq_true, if_false,
    hg, hc, hdis, hdisc, Command.fresh]

/-- Witness for C1: the object `{"type":"Bogus"}`. -/
theorem UnmarshalJSON_unknown_type_witness :
    (∀ m ∈ [("type", JValue.str "Bogus")], fieldMatches "type" m.1 = true →
      ∃ s, m.2 = .str s ∧ s ∉ knownTags) ∧
    Command.fresh.UnmarshalJSON
        ⟨ascii "\x7b\"type\":\"Bogus\"\x7d", some (.obj [("type", .str "Bogus")])⟩
      = (some .unknownCommand, ⟨none, none, none, none⟩) :=
  have h : ∀ m ∈ [("type", JValue.str "Bogus")], fieldMatches "type" m.1 = true →
      ∃ s, m.2 = .str s ∧ s ∉ knownTags := by
    intro m hm _
    simp only [List.mem_singleton] at hm
    subst hm
    exact ⟨"Bogus", rfl, by decide⟩
  ⟨h, UnmarshalJSON_unknown_type _ [("type", .str "Bogus")] h⟩

/-- C1, as stated, fails: the object `{"Type":"GetStatus"}` has no member named
`type`, yet it decodes without error and populates the `GetStatus` variant. -/
theorem UnmarshalJSON_type_missing_counterexample :
    (∀ m ∈ [("Type", JValue.str "GetStatus")], m.1 ≠ "type") ∧
    Command.fresh.UnmarshalJSON
        ⟨ascii "\x7b\"Type\":\"GetStatus\"\x7d", some (.obj [("Type", .str "GetStatus")])⟩
      = (none, ⟨some {}, none, none, none⟩) := by
  refine ⟨?_, by decide⟩
  intro m hm
  simp only [List.mem_singleton] at hm
  subst hm
  decide

/-- C2, as amended.  For every string `a` and every integer `d` that fits Go's
`int`, decoding into a fresh command the literals `{"type":"GetStatus"}`,
`{"type":"Connect","address":a}`, `{"type":"Disconnect"}` and
`{"type":"Discover","duration":d}` succeeds and populates exactly one variant:
`GetStatus`, `Connect` with `Address = a`, `Disconnect`, and `Discover` with
`Duration = d`. -/
theorem UnmarshalJSON_literals (a : String) (d : Int) (b₁ b₂ b₃ b₄ : Bytes)
    (hd : fitsInt d) :
    Command.fresh.UnmarshalJSON ⟨b₁, some (.obj [("type", .str "GetStatus")])⟩
        = (none, ⟨some {}, none, none, none⟩) ∧
    Command.fresh.UnmarshalJSON
        ⟨b₂, some (.obj [("type", .str "Connect"), ("address", .str a)])⟩
        = (none, ⟨none, some ⟨a⟩, none, none⟩) ∧
    Command.fresh.UnmarshalJSON ⟨b₃, some (.obj [("type", .str "Disconnect")])⟩
        = (none, ⟨none, none, some {}, none⟩) ∧
    Command.fresh.UnmarshalJSON
        ⟨b₄, some (.obj [("type", .str "Discover"), ("duration", .int d)])⟩
        = (none, ⟨none, none, none, some ⟨d⟩⟩) := by
  have e1 : fieldMatches "type" "type" = true := by decide
  have e2 : fieldMatches "type" "address" = false := by decide
  have e3 : fieldMatches "address" "type" = false := by decide
  have e4 : fieldMatches "address" "address" = true := by decide
  have e5 : fieldMatches "type" "duration" = false := by decide
  have e6 : fieldMatches "duration" "type" = false := by decide
  have e7 : fieldMatches "duration" "duration" = true := by decide
  have n1 : ¬ ("Connect" = "GetStatus") := by decide
  have n2 : ¬ ("Disconnect" = "GetStatus") := by decide
  have n3 : ¬ ("Disconnect" = "Connect") := by decide
  have n4 : ¬ ("Discover" = "GetStatus") := by decide
  have n5 : ¬ ("Discover" = "Connect") := by decide
  have n6 : ¬ ("Discover" = "Disconnect") := by decide
  refine ⟨?_, ?_, ?_, ?_⟩
  · simp [Command.UnmarshalJSON, unmarshalStruct, decodeField, storeString, e1,
      Command.fresh]
  · simp [Command.UnmarshalJSON, unmarshalStruct, unmarshalPtr, decodeField, storeString,
      e1, e2, e3, e4, n1, Command.fresh]
  · simp [Command.UnmarshalJSON, unmarshalStruct, decodeField, storeString, e1, n2, n3,
      Command.fresh]
  · simp [Command.UnmarshalJSON, unmarshalStruct, unmarshalPtr, decodeField, storeString,
      storeInt, e1, e5, e6, e7, n4, n5, n6, hd, Command.fresh]

/-- Witness for C2: the address `"192.168.1.10"` and the duration `5`. -/
theorem UnmarshalJSON_literals_witness :
    fitsInt 5 ∧
    Command.fresh.UnmarshalJSON
        ⟨[], some (.obj [("type", .str "Connect"), ("address", .str "192.168.1.10")])⟩
        = (none, ⟨none, some ⟨"192.168.1.10"⟩, none, none⟩) ∧
    Command.fresh.UnmarshalJSON
        ⟨[], some (.obj [("type", .str "Discover"), ("duration", .int 5)])⟩
        = (none, ⟨none, none, none, some ⟨5⟩⟩) :=
  ⟨by decide,
    (UnmarshalJSON_literals "192.168.1.10" 5 [] [] [] [] (by decide)).2.1,
    (UnmarshalJSON_literals "192.168.1.10" 5 [] [] [] [] (by decide)).2.2.2⟩

/-- C2, as stated, fails: the integer `2^63` does not fit the `Duration` field,
and decoding `{"type":"Discover","duration":9223372036854775808}` returns an
error. -/
theorem UnmarshalJSON_duration_counterexample :
    (Command.fresh.UnmarshalJSON
        ⟨ascii "\x7b\"type\":\"Discover\",\"duration\":9223372036854775808\x7d",
          some (.obj [("type", .str "Discover"), ("duration", .int 9223372036854775808)])⟩).1
      = some .unmarshalType := by
  decide

/-! ## Properties of the message codec -/

/-- The method `net.IP.MarshalText` by cases: the text of an accepted slice, an
error for any other. -/
theorem IP.MarshalText_eq (ip : IP) :
    ip.MarshalText = if ip.valid then .ok ip.rendered else .error .marshalerError := by
  unfold IP.MarshalText IP.valid IP.rendered
  by_cases h0 : ip.bytes.length = 0
  · simp [h0]
  · by_cases h4 : ip.bytes.length = 4
    · simp [h4]
    · by_cases h16 : ip.bytes.length = 16
      · simp [h16]
      · simp [h0, h4, h16]

/-- The addresses of a slice are rendered in order when all are accepted, and
the encoding fails otherwise. -/
theorem marshalTexts_eq (ips : List IP) :
    marshalTexts ips =
      if ips.all IP.valid then .ok (ips.map fun ip => .str ip.rendered)
      else .error .marshalerError := by
  induction ips with
  | nil => rfl
  | cons ip rest ih =>
    rw [marshalTexts, IP.MarshalText_eq, ih]
    cases hv : ip.valid <;> cases hr : rest.all IP.valid <;> simp [hv, hr]

/-- The `ip` member of a `Discovered` message: `null` exactly when `append`
returns the nil slice, otherwise the array of the addresses of the first slice
followed by those of the second; an error when an address is rejected. -/
theorem marshalIPs_goAppend (s t : Option (List IP)) :
    marshalIPs (goAppend s t) =
      if (elems s ++ elems t).all IP.valid then
        .ok (if s.isNone && (elems t).isEmpty then JValue.null
          else .arr ((elems s ++ elems t).map fun ip => .str ip.rendered))
      else .error .marshalerError := by
  have key : ∀ ips : List IP, marshalIPs (some ips) =
      if ips.all IP.valid then .ok (.arr (ips.map fun ip => .str ip.rendered))
      else .error .marshalerError := by
    intro ips
    simp only [marshalIPs, marshalTexts_eq]
    cases ips.all IP.valid <;> rfl
  cases s with
  | none =>
    cases h : elems t with
    | nil => simp only [goAppend, h]; rfl
    | cons y ys =>
      simp only [goAppend, h]
      exact key (y :: ys)
  | some xs => exact key (xs ++ elems t)

/-- The encoding of a message with only `Discovered` populated. -/
theorem MarshalJSON_discovered (entry : ServiceEntry) :
    Message.MarshalJSON ⟨none, some entry⟩ =
      if entry.addressesValid then
        .ok (.obj [("type", .str "Discovered"), ("service", entry.fields),
          ("ip",
            if entry.AddrIPv4.isNone && (elems entry.AddrIPv6).isEmpty then .null
            else .arr ((elems entry.AddrIPv4 ++ elems entry.AddrIPv6).map
              fun ip => .str ip.rendered))])
      else .error .marshalerError := by
  have h := marshalIPs_goAppend entry.AddrIPv4 entry.AddrIPv6
  simp only [Message.MarshalJSON, ServiceEntry.addressesValid]
  rw [h]
  by_cases hv : (elems entry.AddrIPv4 ++ elems entry.AddrIPv6).all IP.valid = true
  · simp only [hv, if_true]
  · simp only [hv, Bool.false_eq_true, if_false]

/-- C3, as amended.  `Message.MarshalJSON` is determined by the populated
variant.  With `Status` populated it returns the flat object with exactly the
members `type` = `"Status"` and `address` (the string, or `null` when absent).
With only `Discovered` populated, and every address of the record of length 0,
4 or 16, it returns the flat object with exactly the members `type` =
`"Discovered"`, `service` (the record) and `ip`, where `ip` is the array of the
record's IPv4 addresses followed by its IPv6 addresses, in that order, or
`null` when the IPv4 slice is nil and the IPv6 slice is nil or empty; when an
address has another length it returns an error.  With no variant populated it
returns an error. -/
theorem MarshalJSON_by_variant :
    (∀ (address : String) (discovered : Option ServiceEntry),
      Message.MarshalJSON ⟨some ⟨some address⟩, discovered⟩
        = .ok (.obj [("type", .str "Status"), ("address", .str address)])) ∧
    (∀ discovered : Option ServiceEntry,
      Message.MarshalJSON ⟨some ⟨none⟩, discovered⟩
        = .ok (.obj [("type", .str "Status"), ("address", .null)])) ∧
    (∀ entry : ServiceEntry,
      Message.MarshalJSON ⟨none, some entry⟩ =
        if entry.addressesValid then
          .ok (.obj [("type", .str "Discovered"), ("service", entry.fields),
            ("ip",
              if entry.AddrIPv4.isNone && (elems entry.AddrIPv6).isEmpty then .null
              else .arr ((elems entry.AddrIPv4 ++ elems entry.AddrIPv6).map
                fun ip => .str ip.rendered))])
        else .error .marshalerError) ∧
    Message.MarshalJSON ⟨none, none⟩ = .error .couldNotMarshal :=
  ⟨fun _ _ => rfl, fun _ => rfl, MarshalJSON_discovered, rfl⟩

/-- The encoding at a record with one IPv4 and one IPv6 address: `ip` lists the
IPv4 address first. -/
theorem MarshalJSON_discovered_example :
    Message.MarshalJSON ⟨none, some ⟨.obj [("name", .str "Senso")],
        some [⟨[192, 168, 1, 10], "192.168.1.10"⟩],
        some [⟨[254, 128, 0, 0, 0, 0, 0, 0, 0, 0, 0, 0, 0, 0, 0, 1], "fe80::1"⟩]⟩⟩
      = .ok (.obj [("type", .str "Discovered"), ("service", .obj [("name", .str "Senso")]),
          ("ip", .arr [.str "192.168.1.10", .str "fe80::1"])]) :=
  rfl

/-- C3, as stated, fails for a message with only `Discovered` populated, in two
ways.  For a record without addresses (both slices nil) the `ip` member is
`null`, not a list.  For a record with an address of three bytes the call
returns an error and no object. -/
theorem MarshalJSON_discovered_counterexample :
    (Message.MarshalJSON ⟨none, some ⟨.obj [], none, none⟩⟩
        = .ok (.obj [("type", .str "Discovered"), ("service", .obj []), ("ip", .null)]) ∧
      JValue.null ≠ JValue.arr []) ∧
    Message.MarshalJSON ⟨none, some ⟨.obj [], some [⟨[10, 0, 0], "?0a0000"⟩], none⟩⟩
        = .error .marshalerError :=
  ⟨⟨rfl, fun h => JValue.noConfusion h⟩, rfl⟩

/-! ## Properties of the receive loop -/

/-- C4.  On the text frame `{"type":"GetStatus"}` one iteration of the receive
loop makes exactly one socket write, the JSON text frame of a `Status` message
carrying the handle's current address; the frame encodes as the object with
`type` = `"Status"` and that address, which is `{"type":"Status","address":null}`
when no address is known; nothing is published, neither `Connect` nor
`Disconnect` nor a discovery is invoked, and the loop goes on. -/
theorem getStatus_reply :
    (∀ (deferred : List Nat) (env : Env),
      socketWrites (receiveIteration deferred env getStatusFrame).events
          = [.writeJSON ⟨some ⟨env.handle.Address⟩, none⟩ env.write] ∧
      (jsonWrites (receiveIteration deferred env getStatusFrame).events).map
          Message.MarshalJSON
          = [.ok (.obj [("type", .str "Status"),
              ("address", marshalStringPtr env.handle.Address)])] ∧
      busPublishes (receiveIteration deferred env getStatusFrame).events = [] ∧
      (receiveIteration deferred env getStatusFrame).events.any Event.isCollaboratorCall
          = false ∧
      (receiveIteration deferred env getStatusFrame).next = .loop) ∧
    (∀ (deferred : List Nat) (write : WriteResult) (resolver : Option Resolver),
      (jsonWrites (receiveIteration deferred ⟨⟨none⟩, write, resolver⟩
          getStatusFrame).events).map Message.MarshalJSON
        = [.ok (.obj [("type", .str "Status"), ("address", .null)])]) := by
  have hdec : unmarshalCommand
      ⟨ascii "\x7b\"type\":\"GetStatus\"\x7d", some (.obj [("type", .str "GetStatus")])⟩
      Command.fresh = (none, ⟨some {}, none, none, none⟩) := by decide
  have hit : ∀ (deferred : List Nat) (env : Env),
      receiveIteration deferred env getStatusFrame =
        ⟨Event.log .debug "Received command." (some "GetStatus") ::
          lockedWriteJSON ⟨some ⟨env.handle.Address⟩, none⟩ env.write,
          deferred, .loop, none⟩ := by
    intro deferred env
    have hb : ¬ (TextMessage = BinaryMessage) := by decide
    simp only [receiveIteration, getStatusFrame, hb, if_false, if_true, hdec, dispatch,
      Option.isSome_some, Message.fresh]
    rfl
  refine ⟨fun deferred env => ?_, fun deferred write resolver => ?_⟩
  · rw [hit]
    cases hw : env.write <;>
      simp [lockedWriteJSON, socketWrites, jsonWrites, busPublishes, Message.MarshalJSON,
        Event.isCollaboratorCall, WriteResult.isErr]
  · rw [hit]
    cases write <;>
      simp [lockedWriteJSON, jsonWrites, Message.MarshalJSON, marshalStringPtr,
        WriteResult.isErr]

/-- C5.  On a text frame whose payload fails to decode as a command, one
iteration of the receive loop only logs a warning: it writes nothing to the
socket, publishes nothing, invokes neither `Connect`, `Disconnect` nor a
discovery, runs no teardown, and the loop goes on. -/
theorem decode_failure_is_skipped (deferred : List Nat) (env : Env) (msg : Data)
    (h : (unmarshalCommand msg Command.fresh).1 ≠ none) :
    (receiveIteration deferred env (.message TextMessage msg)).events
        = [.log .warning "Can not decode command." none] ∧
    socketWrites (receiveIteration deferred env (.message TextMessage msg)).events = [] ∧
    busPublishes (receiveIteration deferred env (.message TextMessage msg)).events = [] ∧
    (receiveIteration deferred env (.message TextMessage msg)).events.any
        Event.isCollaboratorCall = false ∧
    (receiveIteration deferred env (.message TextMessage msg)).events.countP
        Event.isUnsub = 0 ∧
    (receiveIteration deferred env (.message TextMessage msg)).events.countP
        Event.isConnClose = 0 ∧
    (receiveIteration deferred env (.message TextMessage msg)).next = .loop ∧
    (receiveIteration deferred env (.message TextMessage msg)).deferred = deferred ∧
    (receiveIteration deferred env (.message TextMessage msg)).spawned = none := by
  have hb : ¬ (TextMessage = BinaryMessage) := by decide
  have hit : receiveIteration deferred env (.message TextMessage msg)
      = ⟨[.log .warning "Can not decode command." none], deferred, .loop, none⟩ := by
    rcases hu : unmarshalCommand msg Command.fresh with ⟨err, command⟩
    cases err with
    | none => rw [hu] at h; exact absurd rfl h
    | some e => simp only [receiveIteration, hb, if_false, if_true, hu]
  rw [hit]
  simp [socketWrites, busPublishes, Event.isCollaboratorCall, Event.isUnsub,
    Event.isConnClose]

/-- Witness for C5: the text frame `not json`. -/
theorem decode_failure_is_skipped_witness :
    (unmarshalCommand ⟨ascii "not json", none⟩ Command.fresh).1 ≠ none ∧
    (receiveIteration [] ⟨⟨none⟩, .ok, none⟩
        (.message TextMessage ⟨ascii "not json", none⟩)).events
        = [.log .warning "Can not decode command." none] :=
  ⟨by decide,
    (decode_failure_is_skipped [] ⟨⟨none⟩, .ok, none⟩ ⟨ascii "not json", none⟩
      (by decide)).1⟩

/-- C6.  On a binary frame with payload `b`, one iteration of the receive loop
publishes exactly `b` to the topic `"tx"`, once, and does nothing else: no
socket write, no decoding of `b` (the result is the same whatever `b` would
decode to), and the loop goes on. -/
theorem binary_frame_is_published (deferred : List Nat) (env : Env) (b : Bytes)
    (json : Option JValue) :
    (receiveIteration deferred env (.message BinaryMessage ⟨b, json⟩)).events
        = [.tryPub b "tx"] ∧
    busPublishes (receiveIteration deferred env (.message BinaryMessage ⟨b, json⟩)).events
        = [(b, "tx")] ∧
    socketWrites (receiveIteration deferred env (.message BinaryMessage ⟨b, json⟩)).events
        = [] ∧
    (receiveIteration deferred env (.message BinaryMessage ⟨b, json⟩)).next = .loop ∧
    (receiveIteration deferred env (.message BinaryMessage ⟨b, json⟩)).deferred
        = deferred ∧
    (receiveIteration deferred env (.message BinaryMessage ⟨b, json⟩)).spawned = none := by
  simp [receiveIteration, busPublishes, socketWrites]

/-! ## Properties of discovery -/

/-- C8, at the failing input.  When `zeroconf.NewResolver` fails,
`Handle.Discover` logs the error and goes on to call `Browse` on the nil
resolver: it does not return but panics, and in the receive loop the panic ends
the goroutine, and with it the process, after the deferred calls. -/
theorem Discover_without_resolver_panics :
    (∀ ctx : Nat,
      Handle.Discover none ctx
        = ([.newResolver, .log .error "Initializing discovery failed." none,
            .log .debug "Initialized discovery." none, .browse ctx], .panicked)) ∧
    (∀ env : Env,
      (receiveIteration [] { env with resolver := none }
        (.message TextMessage
          ⟨ascii "\x7b\"type\":\"Discover\",\"duration\":5\x7d",
            some (.obj [("type", .str "Discover"), ("duration", .int 5)])⟩)).next
        = .crash) := by
  refine ⟨fun _ => rfl, fun env => ?_⟩
  have hdec : unmarshalCommand
      ⟨ascii "\x7b\"type\":\"Discover\",\"duration\":5\x7d",
        some (.obj [("type", .str "Discover"), ("duration", .int 5)])⟩ Command.fresh
      = (none, ⟨none, none, none, some ⟨5⟩⟩) := by decide
  have hb : ¬ (TextMessage = BinaryMessage) := by decide
  simp [receiveIteration, hb, hdec, dispatch, Handle.Discover, Resolver.Browse]

/-- When only the browse fails, `Handle.Discover` logs the error and returns a
stream that yields nothing. -/
theorem Discover_browse_failure_returns (found : List ServiceEntry) (ctx : Nat) :
    Handle.Discover (some ⟨true, found⟩) ctx
      = ([.newResolver, .log .debug "Initialized discovery." none, .browse ctx,
          .log .error "Browsing failed." none], .returned []) :=
  rfl

/-- The socket writes of a concatenation. -/
theorem socketWrites_append (xs ys : List Event) :
    socketWrites (xs ++ ys) = socketWrites xs ++ socketWrites ys := by
  induction xs with
  | nil => rfl
  | cons x xs ih => cases x <;> simp [socketWrites, ih]

/-- The JSON writes of a concatenation. -/
theorem jsonWrites_append (xs ys : List Event) :
    jsonWrites (xs ++ ys) = jsonWrites xs ++ jsonWrites ys := by
  induction xs with
  | nil => rfl
  | cons x xs ih => cases x <;> simp [jsonWrites, ih]

/-- The successful JSON writes of a concatenation. -/
theorem jsonWritten_append (xs ys : List Event) :
    jsonWritten (xs ++ ys) = jsonWritten xs ++ jsonWritten ys := by
  induction xs with
  | nil => rfl
  | cons x xs ih =>
    cases x with
    | writeJSON m r => cases r <;> simp [jsonWritten, ih]
    | _ => simp [jsonWritten, ih]

/-- The socket writes of a consumer: one per record, in order. -/
theorem socketWrites_consumer (stream : List (ServiceEntry × WriteResult)) :
    socketWrites (consumer stream)
      = stream.map (fun p => .writeJSON ⟨none, some p.1⟩ p.2) := by
  induction stream with
  | nil => rfl
  | cons p rest ih =>
    obtain ⟨e, r⟩ := p
    cases r <;>
      simp [consumer, consumerIteration, lockedWriteJSON, socketWrites,
        socketWrites_append, ih, Message.fresh, WriteResult.isErr]

/-- The messages a consumer hands to `conn.WriteJSON`: one per record, in
order. -/
theorem jsonWrites_consumer (stream : List (ServiceEntry × WriteResult)) :
    jsonWrites (consumer stream) = stream.map (fun p => ⟨none, some p.1⟩) := by
  induction stream with
  | nil => rfl
  | cons p rest ih =>
    obtain ⟨e, r⟩ := p
    cases r <;>
      simp [consumer, consumerIteration, lockedWriteJSON, jsonWrites, jsonWrites_append,
        ih, Message.fresh, WriteResult.isErr]

/-- The message one iteration of a consumer writes successfully, if any. -/
theorem jsonWritten_consumerIteration (e : ServiceEntry) (r : WriteResult) :
    jsonWritten (consumerIteration e r) = if r.isErr then [] else [⟨none, some e⟩] := by
  cases r <;> rfl

/-- The messages a consumer writes successfully: those of the records whose
write succeeded, in order. -/
theorem jsonWritten_consumer (stream : List (ServiceEntry × WriteResult)) :
    jsonWritten (consumer stream)
      = (stream.filter (fun p => !p.2.isErr)).map (fun p => ⟨none, some p.1⟩) := by
  induction stream with
  | nil => rfl
  | cons p rest ih =>
    obtain ⟨e, r⟩ := p
    simp only [consumer, jsonWritten_append, jsonWritten_consumerIteration, ih,
      List.filter_cons]
    cases h : r.isErr <;> simp

/-- C9.  For every finite stream of service records, each with the result of
its write, the discovery consumer makes exactly one socket write per record, a
text frame, in the order of the stream and without deduplication; each is the
encoding of a `Discovered` message for that record (the flat `Discovered`
object whenever the record's addresses are well-formed, as those of a
discovery stream are); a failed write does not stop the consumer, and the
frames written successfully are those of the records whose write succeeded, in
order. -/
theorem consumer_writes (stream : List (ServiceEntry × WriteResult)) :
    socketWrites (consumer stream)
        = stream.map (fun p => .writeJSON ⟨none, some p.1⟩ p.2) ∧
    jsonWritten (consumer stream)
        = (stream.filter (fun p => !p.2.isErr)).map (fun p => ⟨none, some p.1⟩) ∧
    (jsonWrites (consumer stream)).map Message.MarshalJSON
        = stream.map (fun p =>
            if p.1.addressesValid then
              .ok (.obj [("type", .str "Discovered"), ("service", p.1.fields),
                ("ip",
                  if p.1.AddrIPv4.isNone && (elems p.1.AddrIPv6).isEmpty then .null
                  else .arr ((elems p.1.AddrIPv4 ++ elems p.1.AddrIPv6).map
                    fun ip => .str ip.rendered))])
            else .error .marshalerError) := by
  refine ⟨socketWrites_consumer stream, jsonWritten_consumer stream, ?_⟩
  rw [jsonWrites_consumer, List.map_map]
  exact congrArg (fun f => List.map f stream) (funext fun p => MarshalJSON_discovered p.1)

/-! ## Teardown -/

/-- The unsubscriptions in the events of `send`: none. -/
theorem countP_isUnsub_sendIteration (item : Option Bytes) (r : WriteResult) :
    (sendIteration item r).1.countP Event.isUnsub = 0 ∧
    (sendIteration item r).1.countP Event.isConnClose = 0 := by
  cases item with
  | none => exact ⟨rfl, rfl⟩
  | some data =>
    cases r with
    | ok => exact ⟨rfl, rfl⟩
    | failed u => cases u <;> exact ⟨rfl, rfl⟩

/-- The deferred calls unsubscribe once and close the socket once. -/
theorem countP_runDeferred (deferred : List Nat) :
    (runDeferred deferred).countP Event.isUnsub = 1 ∧
    (runDeferred deferred).countP Event.isConnClose = 1 := by
  have h1 : ∀ l : List Nat, (l.map Event.cancelDiscovery).countP Event.isUnsub = 0 := by
    intro l; induction l with
    | nil => rfl
    | cons x xs ih => simp [List.countP_cons, Event.isUnsub]
  have h2 : ∀ l : List Nat, (l.map Event.cancelDiscovery).countP Event.isConnClose = 0 := by
    intro l; induction l with
    | nil => rfl
    | cons x xs ih => simp [List.countP_cons, Event.isConnClose]
  constructor
  · rw [runDeferred, List.countP_append, h1]; rfl
  · rw [runDeferred, List.countP_append, h2]; rfl

/-- The events of a locked JSON write contain no teardown. -/
theorem countP_lockedWriteJSON (m : Message) (r : WriteResult) :
    (lockedWriteJSON m r).countP Event.isUnsub = 0 ∧
    (lockedWriteJSON m r).countP Event.isConnClose = 0 := by
  cases r <;> exact ⟨rfl, rfl⟩

/-- The events of `Handle.Discover` contain no teardown. -/
theorem countP_Discover (resolver : Option Resolver) (ctx : Nat) :
    (Handle.Discover resolver ctx).1.countP Event.isUnsub = 0 ∧
    (Handle.Discover resolver ctx).1.countP Event.isConnClose = 0 := by
  cases resolver with
  | none => exact ⟨rfl, rfl⟩
  | some r =>
    obtain ⟨f, found⟩ := r
    cases f <;> exact ⟨rfl, rfl⟩

/-- An iteration of the dispatch runs teardown exactly when it ends the
goroutine. -/
theorem countP_dispatch (deferred : List Nat) (env : Env) (command : Command) :
    (dispatch deferred env command).events.countP Event.isUnsub
        = (if (dispatch deferred env command).next = .loop then 0 else 1) ∧
    (dispatch deferred env command).events.countP Event.isConnClose
        = (if (dispatch deferred env command).next = .loop then 0 else 1) := by
  unfold dispatch
  split
  · simpa using countP_lockedWriteJSON _ _
  · split
    · exact ⟨rfl, rfl⟩
    · split
      · exact ⟨rfl, rfl⟩
      · split
        · rename_i d _
          have hD := countP_Discover env.resolver deferred.length
          rcases hdisc : Handle.Discover env.resolver deferred.length with ⟨evs, out⟩
          rw [hdisc] at hD
          cases out with
          | returned entries =>
            simp only [hdisc, List.cons_append, List.nil_append, List.countP_append,
              List.countP_cons, List.countP_nil, Event.isUnsub, Event.isConnClose, hD.1, hD.2]
            simp
          | panicked =>
            have hR := countP_runDeferred (deferred.length :: deferred)
            simp only [hdisc, List.cons_append, List.nil_append, List.countP_append,
              List.countP_cons, List.countP_nil, Event.isUnsub, Event.isConnClose, hD.1, hD.2,
              hR.1, hR.2]
            simp
        · exact ⟨rfl, rfl⟩

/-- An iteration of the receive loop runs teardown exactly when it ends the
goroutine. -/
theorem countP_receiveIteration (deferred : List Nat) (env : Env) (r : ReadResult) :
    (receiveIteration deferred env r).events.countP Event.isUnsub
        = (if (receiveIteration deferred env r).next = .loop then 0 else 1) ∧
    (receiveIteration deferred env r).events.countP Event.isConnClose
        = (if (receiveIteration deferred env r).next = .loop then 0 else 1) := by
  cases r with
  | failed u =>
    have hR := countP_runDeferred deferred
    cases u <;>
      simp [receiveIteration, List.countP_append, List.countP_cons, Event.isUnsub,
        Event.isConnClose, hR.1, hR.2]
  | message messageType msg =>
    have hne : ¬ (TextMessage = BinaryMessage) := by decide
    by_cases hb : messageType = BinaryMessage
    · simp [receiveIteration, hb, Event.isUnsub, Event.isConnClose]
    · by_cases ht : messageType = TextMessage
      · subst ht
        rcases hu : unmarshalCommand msg Command.fresh with ⟨err, command⟩
        cases err with
        | some e => simp [receiveIteration, hne, hu, Event.isUnsub, Event.isConnClose]
        | none =>
          have hd := countP_dispatch deferred env command
          simp only [receiveIteration, hne, hu, if_false, if_true, List.countP_cons,
            Event.isUnsub, Event.isConnClose, Bool.false_eq_true, Nat.add_zero]
          exact hd
      · simp [receiveIteration, hb, ht]

/-- The events of one iteration of a consumer contain no teardown. -/
theorem countP_consumerIteration (e : ServiceEntry) (r : WriteResult) :
    (consumerIteration e r).countP Event.isUnsub = 0 ∧
    (consumerIteration e r).countP Event.isConnClose = 0 := by
  cases r <;> exact ⟨rfl, rfl⟩

/-- Every step of a session keeps `TornDownOnce`. -/
theorem Session.step_tornDownOnce (s : Session) (i : Input) (h : s.TornDownOnce) :
    (s.step i).TornDownOnce := by
  cases i with
  | rx item result =>
    by_cases hrun : s.sendRunning = true
    · have hc := countP_isUnsub_sendIteration item result
      simpa [Session.step, hrun, Session.TornDownOnce, Session.unsubs, Session.closes,
        List.countP_append, hc.1, hc.2] using h
    · simpa [Session.step, hrun] using h
  | read r env =>
    by_cases hrun : s.recvRunning = true
    · have hc := countP_receiveIteration s.deferred env r
      simp only [Session.TornDownOnce, Session.unsubs, Session.closes, hrun, if_true] at h
      simp only [Session.step, hrun, if_true, Session.TornDownOnce, Session.unsubs,
        Session.closes, List.countP_append, h.1, h.2, hc.1, hc.2, Nat.zero_add, beq_iff_eq]
      exact ⟨trivial, trivial⟩
    · simpa [Session.step, hrun] using h
  | entry ctx result =>
    by_cases hcr : s.crashed = true
    · simpa [Session.step, hcr] using h
    · simp only [Session.step, hcr, Bool.false_eq_true, if_false]
      split
      · rename_i e rest _
        have hc := countP_consumerIteration e result
        simpa [Session.TornDownOnce, Session.unsubs, Session.closes, List.countP_append,
          hc.1, hc.2] using h
      · simpa [Session.TornDownOnce, Session.unsubs, Session.closes, List.countP_append,
          Event.isUnsub, Event.isConnClose] using h
      · exact h

/-- Every run of a session keeps `TornDownOnce`. -/
theorem Session.run_tornDownOnce (inputs : List Input) :
    ∀ s : Session, s.TornDownOnce → (s.run inputs).TornDownOnce := by
  induction inputs with
  | nil => intro s h; exact h
  | cons i rest ih => intro s h; exact ih (s.step i) (s.step_tornDownOnce i h)

/-- A run extended by one input. -/
theorem Session.run_snoc (s : Session) (inputs : List Input) (i : Input) :
    s.run (inputs ++ [i]) = (s.run inputs).step i := by
  simp [Session.run, List.foldl_append]

/-- C7, as amended.  A failed socket write in the send loop ends the send loop,
and that is all it does: nothing is unsubscribed or closed by it and the
receive loop goes on.  Teardown (unsubscribe from the bus, close the socket) is
run by the receive loop when it observes a read error, and in every
interleaving of the goroutines of a session it has run at most once: never
while the receive loop runs, exactly once after the receive loop has ended. -/
theorem teardown_by_receive_loop :
    (∀ (s : Session) (data : Bytes) (unexpected : Bool),
      (s.step (.rx (some data) (.failed unexpected))).sendRunning = false ∧
      (s.step (.rx (some data) (.failed unexpected))).unsubs = s.unsubs ∧
      (s.step (.rx (some data) (.failed unexpected))).closes = s.closes ∧
      (s.step (.rx (some data) (.failed unexpected))).recvRunning = s.recvRunning) ∧
    (∀ (inputs : List Input) (unexpected : Bool) (env : Env),
      ((ServeHTTP true).run (inputs ++ [.read (.failed unexpected) env])).recvRunning
          = false ∧
      ((ServeHTTP true).run (inputs ++ [.read (.failed unexpected) env])).unsubs = 1 ∧
      ((ServeHTTP true).run (inputs ++ [.read (.failed unexpected) env])).closes = 1) ∧
    (∀ inputs : List Input,
      ((ServeHTTP true).run inputs).unsubs
          = (if ((ServeHTTP true).run inputs).recvRunning then 0 else 1) ∧
      ((ServeHTTP true).run inputs).closes
          = (if ((ServeHTTP true).run inputs).recvRunning then 0 else 1)) := by
  have hinit : (ServeHTTP true).TornDownOnce := ⟨rfl, rfl⟩
  have hall : ∀ inputs : List Input, ((ServeHTTP true).run inputs).TornDownOnce :=
    fun inputs => Session.run_tornDownOnce inputs _ hinit
  refine ⟨fun s data unexpected => ?_, fun inputs unexpected env => ?_, hall⟩
  · by_cases hrun : s.sendRunning = true
    · have hc := countP_isUnsub_sendIteration (some data) (.failed unexpected)
      simp only [Session.step, hrun, if_true, Session.unsubs, Session.closes,
        List.countP_append, hc.1, hc.2, Nat.add_zero]
      exact ⟨rfl, trivial, trivial, trivial⟩
    · simp only [Session.step, hrun, Bool.false_eq_true, if_false, and_self, and_true]
  · have h := hall (inputs ++ [.read (.failed unexpected) env])
    have hr : ((ServeHTTP true).run (inputs ++ [.read (.failed unexpected) env])).recvRunning
        = false := by
      rw [Session.run_snoc]
      by_cases hrun : ((ServeHTTP true).run inputs).recvRunning = true
      · simp [Session.step, hrun, receiveIteration]
      · simp only [Session.step, hrun, Bool.false_eq_true, if_false]
    refine ⟨hr, ?_, ?_⟩
    · rw [h.1, hr]; rfl
    · rw [h.2, hr]; rfl

/-- C7, as stated, fails: after a failed write in the send loop of an open
session the send loop has ended, but the bus subscription is not unsubscribed
and the socket is not closed, and the receive loop still runs. -/
theorem send_failure_counterexample :
    ((ServeHTTP true).run [.rx (some [1, 2]) (.failed true)]).sendRunning = false ∧
    ((ServeHTTP true).run [.rx (some [1, 2]) (.failed true)]).unsubs = 0 ∧
    ((ServeHTTP true).run [.rx (some [1, 2]) (.failed true)]).closes = 0 ∧
    ((ServeHTTP true).run [.rx (some [1, 2]) (.failed true)]).recvRunning = true := by
  decide

/-! ## The write lock -/

/-- Effects that keep the lock discipline and end with the mutex released can
be followed by others. -/
theorem wellLocked_append (l₁ l₂ : List Event) :
    ∀ held : Bool, wellLocked held l₁ = true →
      wellLocked held (l₁ ++ l₂) = wellLocked false l₂ := by
  induction l₁ with
  | nil =>
    intro held h
    cases held
    · rfl
    · simp [wellLocked] at h
  | cons e rest ih =>
    intro held h
    cases e <;> cases held <;>
      simp_all [wellLocked, Event.onSocket]

/-- The deferred `cancelDiscovery` calls do not touch the lock. -/
theorem wellLocked_cancelDiscovery (deferred : List Nat) (l : List Event) (held : Bool) :
    wellLocked held (deferred.map .cancelDiscovery ++ l) = wellLocked held l := by
  induction deferred with
  | nil => rfl
  | cons x xs ih => simp [wellLocked, Event.onSocket, ih]

/-- The deferred calls keep the lock discipline. -/
theorem wellLocked_runDeferred (deferred : List Nat) :
    wellLocked false (runDeferred deferred) = true := by
  rw [runDeferred, wellLocked_cancelDiscovery]
  rfl

/-- An iteration of the send loop keeps the lock discipline. -/
theorem wellLocked_sendIteration (item : Option Bytes) (r : WriteResult) :
    wellLocked false (sendIteration item r).1 = true := by
  cases item with
  | none => rfl
  | some data =>
    cases r with
    | ok => rfl
    | failed u => cases u <;> rfl

/-- A locked JSON write keeps the lock discipline. -/
theorem wellLocked_lockedWriteJSON (m : Message) (r : WriteResult) :
    wellLocked false (lockedWriteJSON m r) = true := by
  cases r <;> rfl

/-- The call of `Handle.Discover` does not touch the lock. -/
theorem wellLocked_Discover (resolver : Option Resolver) (ctx : Nat) :
    wellLocked false (Handle.Discover resolver ctx).1 = true := by
  cases resolver with
  | none => rfl
  | some r =>
    obtain ⟨f, found⟩ := r
    cases f <;> rfl

/-- The dispatch on a command keeps the lock discipline. -/
theorem wellLocked_dispatch (deferred : List Nat) (env : Env) (command : Command) :
    wellLocked false (dispatch deferred env command).events = true := by
  unfold dispatch
  split
  · exact wellLocked_lockedWriteJSON _ _
  · split
    · rfl
    · split
      · rfl
      · split
        · have hD := wellLocked_Discover env.resolver deferred.length
          rcases hdisc : Handle.Discover env.resolver deferred.length with ⟨evs, out⟩
          rw [hdisc] at hD
          simp only at hD
          cases out with
          | returned entries =>
            simp only [hdisc, List.cons_append, List.nil_append, wellLocked, Event.onSocket,
              Bool.not_false, Bool.or_true, Bool.true_and]
            rw [wellLocked_append _ _ _ hD]
            rfl
          | panicked =>
            simp only [hdisc, List.cons_append, List.nil_append, wellLocked, Event.onSocket,
              Bool.not_false, Bool.or_true, Bool.true_and]
            rw [wellLocked_append _ _ _ hD]
            exact wellLocked_runDeferred _
        · rfl

/-- An iteration of the receive loop keeps the lock discipline. -/
theorem wellLocked_receiveIteration (deferred : List Nat) (env : Env) (r : ReadResult) :
    wellLocked false (receiveIteration deferred env r).events = true := by
  cases r with
  | failed u =>
    have hR := wellLocked_runDeferred deferred
    cases u <;> simp [receiveIteration, wellLocked, Event.onSocket, hR]
  | message messageType msg =>
    have hne : ¬ (TextMessage = BinaryMessage) := by decide
    by_cases hb : messageType = BinaryMessage
    · simp [receiveIteration, hb, wellLocked, Event.onSocket]
    · by_cases ht : messageType = TextMessage
      · subst ht
        rcases hu : unmarshalCommand msg Command.fresh with ⟨err, command⟩
        cases err with
        | some e => simp [receiveIteration, hne, hu, wellLocked, Event.onSocket]
        | none =>
          have hd := wellLocked_dispatch deferred env command
          simp only [receiveIteration, hne, hu, if_false, if_true, wellLocked,
            Event.onSocket, Bool.not_false, Bool.or_true, Bool.true_and]
          exact hd
      · simp [receiveIteration, hb, ht, wellLocked]

/-- An iteration of a discovery consumer keeps the lock discipline. -/
theorem wellLocked_consumerIteration (e : ServiceEntry) (r : WriteResult) :
    wellLocked false (consumerIteration e r) = true := by
  cases r <;> rfl

/-- Starting an iteration that keeps the lock discipline keeps `Exclusive`. -/
theorem Interleaved.start_exclusive (s : Interleaved) (g : Goroutine) (events : List Event)
    (hev : wellLocked false events = true) (h : s.Exclusive) :
    (s.start g events).Exclusive := by
  unfold Interleaved.start
  split
  · rename_i hempty
    obtain ⟨holds, hwl, hlocked, huniq⟩ := h
    have hg : holds g = false := by
      have := hwl g
      rw [List.isEmpty_iff.mp hempty] at this
      cases hh : holds g
      · rfl
      · rw [hh] at this; simp [wellLocked] at this
    refine ⟨holds, fun v => ?_, hlocked, huniq⟩
    by_cases e : v = g
    · subst e; simp only [Function.update_same]; rw [hg]; exact hev
    · simp only [Function.update_noteq e]; exact hwl v
  · exact h

/-- Every step keeps `Exclusive`. -/
theorem Interleaved.step_exclusive (s : Interleaved) (a : Action) (h : s.Exclusive) :
    (s.step a).Exclusive := by
  cases a with
  | rx item result => exact s.start_exclusive _ _ (wellLocked_sendIteration _ _) h
  | read deferred env r => exact s.start_exclusive _ _ (wellLocked_receiveIteration _ _ _) h
  | entry ctx e result => exact s.start_exclusive _ _ (wellLocked_consumerIteration _ _) h
  | exec g =>
    obtain ⟨holds, hwl, hlocked, huniq⟩ := h
    have hg := hwl g
    cases hp : s.pending g with
    | nil => simpa [Interleaved.step, hp] using ⟨holds, hwl, hlocked, huniq⟩
    | cons e rest =>
      rw [hp] at hg
      by_cases hl : e = .lock
      · subst hl
        simp only [wellLocked, Bool.and_eq_true, Bool.not_eq_eq_eq_not, Bool.not_true] at hg
        by_cases hlk : s.locked = true
        · simpa [Interleaved.step, hp, hlk] using ⟨holds, hwl, hlocked, huniq⟩
        · simp only [Interleaved.step, hp, hlk, Bool.false_eq_true, if_false]
          have hnone : ∀ v, holds v = true → False := fun v hv => hlk (hlocked v hv)
          refine ⟨Function.update holds g true, fun v => ?_, fun _ _ => rfl,
            fun v₁ v₂ h₁ h₂ => ?_⟩
          · by_cases e : v = g
            · subst e; simp only [Function.update_same]; exact hg.2
            · simp only [Function.update_noteq e]; exact hwl v
          · have e₁ : v₁ = g := by
              by_cases e : v₁ = g
              · exact e
              · simp only [Function.update_noteq e] at h₁; exact (hnone v₁ h₁).elim
            have e₂ : v₂ = g := by
              by_cases e : v₂ = g
              · exact e
              · simp only [Function.update_noteq e] at h₂; exact (hnone v₂ h₂).elim
            rw [e₁, e₂]
      · by_cases hu : e = .unlock
        · subst hu
          simp only [wellLocked, Bool.and_eq_true] at hg
          simp only [Interleaved.step, hp]
          refine ⟨Function.update holds g false, fun v => ?_, fun v hv => ?_,
            fun v₁ _ h₁ _ => ?_⟩
          · by_cases e : v = g
            · subst e; simp only [Function.update_same]; exact hg.2
            · simp only [Function.update_noteq e]; exact hwl v
          · by_cases e : v = g
            · subst e; simp at hv
            · simp only [Function.update_noteq e] at hv
              exact (e (huniq v g hv hg.1)).elim
          · by_cases e : v₁ = g
            · subst e; simp at h₁
            · simp only [Function.update_noteq e] at h₁
              exact (e (huniq v₁ g h₁ hg.1)).elim
        · have hrest : wellLocked (holds g) rest = true := by
            cases e <;> simp_all [wellLocked]
          have hstep : s.step (.exec g)
              = { s with pending := Function.update s.pending g rest } := by
            cases e <;> simp_all [Interleaved.step]
          rw [hstep]
          refine ⟨holds, fun v => ?_, hlocked, huniq⟩
          by_cases e : v = g
          · subst e; simp only [Function.update_same]; exact hrest
          · simp only [Function.update_noteq e]; exact hwl v

/-- Every schedule keeps `Exclusive`. -/
theorem Interleaved.run_exclusive (schedule : List Action) :
    ∀ s : Interleaved, s.Exclusive → (s.run schedule).Exclusive := by
  induction schedule with
  | nil => intro s h; exact h
  | cons a rest ih => intro s h; exact ih (s.step a) (s.step_exclusive a h)

/-- A goroutine whose next effect uses the write side of the socket, and which
keeps the lock discipline, holds the mutex. -/
theorem held_of_atSocket (held : Bool) (l : List Event) (hw : wellLocked held l = true)
    (h : atSocket l = true) : held = true := by
  cases l with
  | nil => simp [atSocket] at h
  | cons e rest => cases e <;> simp_all [atSocket, wellLocked, Event.onSocket]

/-- C10.  In every interleaving of the send loop, the receive loop (with its
`GetStatus` reply) and the discovery consumers of a session, at most one
goroutine is on the write side of the socket (setting the write deadline or
writing a frame) at any time: two goroutines found there are the same one, and
the write mutex is locked meanwhile. -/
theorem write_serialization (schedule : List Action) (g₁ g₂ : Goroutine)
    (h₁ : atSocket ((Interleaved.init.run schedule).pending g₁) = true)
    (h₂ : atSocket ((Interleaved.init.run schedule).pending g₂) = true) :
    g₁ = g₂ ∧ (Interleaved.init.run schedule).locked = true := by
  have hinit : Interleaved.init.Exclusive :=
    ⟨fun _ => false, fun _ => rfl, fun _ hv => by simp at hv, fun _ _ hv _ => by simp at hv⟩
  obtain ⟨holds, hwl, hlocked, huniq⟩ := Interleaved.run_exclusive schedule _ hinit
  have k₁ := held_of_atSocket _ _ (hwl g₁) h₁
  have k₂ := held_of_atSocket _ _ (hwl g₂) h₂
  exact ⟨huniq g₁ g₂ k₁ k₂, hlocked g₁ k₁⟩

/-- Witness for C10: the send loop has locked the mutex and set the deadline and
is at its write, while the consumer of discovery 0 waits at `Lock()`. -/
theorem write_serialization_witness :
    atSocket ((Interleaved.init.run
        [.rx (some [1, 2]) .ok, .entry 0 ⟨.null, none, none⟩ .ok, .exec .sendLoop,
          .exec (.consumer 0), .exec (.consumer 0), .exec .sendLoop]).pending .sendLoop)
      = true ∧
    (Goroutine.sendLoop = Goroutine.sendLoop ∧
      (Interleaved.init.run
        [.rx (some [1, 2]) .ok, .entry 0 ⟨.null, none, none⟩ .ok, .exec .sendLoop,
          .exec (.consumer 0), .exec (.consumer 0), .exec .sendLoop]).locked = true) :=
  ⟨by decide, write_serialization _ .sendLoop .sendLoop (by decide) (by decide)⟩

end Senso
